import Mathlib

/-!
Verification development for the fabricator-ai-init shape-inference core.

The two modules with algorithmic content, `text_processor.py` and
`sketch_processor.py`, are shallowly embedded below.  Python floats are
modelled by `ℚ` (IEEE doubles are rationals; none of the properties checked
here depend on rounding), `math.pi` by the rational value of the double
constant, and `math.sqrt` by a fixed computable non-negative rational
approximation (no claim depends on the value of a square root, only on its
non-negativity and on both sides of an equation using the same function).
Python dicts are modelled by insertion-ordered association lists, and the
dict keys appearing in the source by finite key types.  Regex scans are
compiled by hand into character-list scanners that follow the semantics of
the concrete patterns in the source.
-/

namespace Fabricator

/-- Rational value of the IEEE-double constant `math.pi` used by the source
(written as an explicit fraction so that it evaluates by reduction). -/
def piQ : ℚ := 3141592653589793 / 1000000000000000

/-- Computable stand-in for `math.sqrt`: a truncated rational approximation.
Always non-negative; claims only use that and referential transparency. -/
def sqrtQ (x : ℚ) : ℚ := (Nat.sqrt (x * 1000000000000).floor.toNat : ℚ) / 1000000

theorem sqrtQ_nonneg (x : ℚ) : 0 ≤ sqrtQ x := by
  unfold sqrtQ
  positivity

theorem piQ_pos : 0 < piQ := by norm_num [piQ]

/-! ### Character classes (ASCII, as used by the `re` patterns on this input set) -/

/-- `\w`: word characters. -/
def isWordChar (c : Char) : Bool := c.isAlphanum || c = '_'

/-- `\s`: whitespace characters. -/
def isSpaceChar (c : Char) : Bool :=
  c = ' ' || c = '\t' || c = '\n' || c = '\r' || c = '\x0b' || c = '\x0c'

/-- `\d`: decimal digits. -/
def isDigitChar (c : Char) : Bool := c.isDigit

/-- `[a-zA-Z]`. -/
def isLetterChar (c : Char) : Bool := c.isAlpha

/-- Python `str.lower()` (ASCII inputs). -/
def strToLower (s : String) : String := String.mk (s.data.map Char.toLower)

/-! ### Python dict model

`text_processor.py` manipulates two dicts: the dimensions mapping (keys
`radius`, `diameter`, `width`, `height`, `length`, `side`) and the shape
record (keys `type`, `confidence`, `vertices`, `area`, `perimeter`,
`center`, `radius`, `diameter`, `width`, `height`, `side_length`,
`timestamp`, `source`).  Keys are modelled by finite types; the dicts by
insertion-ordered association lists with CPython semantics: assignment to
an existing key keeps its position, assignment to a fresh key appends. -/

inductive DimKey where
  | radius | diameter | width | height | length | side
deriving DecidableEq

abbrev Dims := List (DimKey × ℚ)

def dimsSet : Dims → DimKey → ℚ → Dims
  | [], k, v => [(k, v)]
  | (k', v') :: rest, k, v =>
      if k' = k then (k', v) :: rest else (k', v') :: dimsSet rest k v

def dimsGet? : Dims → DimKey → Option ℚ
  | [], _ => none
  | (k', v') :: rest, k => if k' = k then some v' else dimsGet? rest k

/-- `dimensions.get(key, default)`. -/
def dimsGetD (d : Dims) (k : DimKey) (dflt : ℚ) : ℚ := (dimsGet? d k).getD dflt

/-- `key in dimensions`. -/
def dimsContains (d : Dims) (k : DimKey) : Bool := (dimsGet? d k).isSome

inductive FieldKey where
  | type | confidence | vertices | area | perimeter | center
  | radius | diameter | width | height | sideLength | timestamp | source
deriving DecidableEq

inductive PyVal where
  | str : String → PyVal
  | num : ℚ → PyVal
  | int : Int → PyVal
  | pair : ℚ → ℚ → PyVal
deriving DecidableEq

abbrev PyDict := List (FieldKey × PyVal)

def dictSet : PyDict → FieldKey → PyVal → PyDict
  | [], k, v => [(k, v)]
  | (k', v') :: rest, k, v =>
      if k' = k then (k', v) :: rest else (k', v') :: dictSet rest k v

def dictGet? : PyDict → FieldKey → Option PyVal
  | [], _ => none
  | (k', v') :: rest, k => if k' = k then some v' else dictGet? rest k

/-- `dict.update(other)`: left-to-right assignment of the entries of `u`. -/
def dictUpdate (d : PyDict) (u : PyDict) : PyDict :=
  u.foldl (fun acc p => dictSet acc p.1 p.2) d

/-- `len(dict)`. -/
def dictLen (d : PyDict) : Nat := d.length

/-- `del dict[k]` (used only spec-side, to compare records up to timestamp). -/
def dictErase : PyDict → FieldKey → PyDict
  | [], _ => []
  | (k', v') :: rest, k =>
      if k' = k then dictErase rest k else (k', v') :: dictErase rest k

/-- Numeric projection of a record field (0 if absent or non-numeric). -/
def getNum (d : PyDict) (k : FieldKey) : ℚ :=
  match dictGet? d k with
  | some (.num q) => q
  | _ => 0

/-- String projection of a record field ("" if absent or non-string). -/
def getStr (d : PyDict) (k : FieldKey) : String :=
  match dictGet? d k with
  | some (.str s) => s
  | _ => ""

/-- Integer projection of a record field (0 if absent or non-integer). -/
def getInt (d : PyDict) (k : FieldKey) : Int :=
  match dictGet? d k with
  | some (.int n) => n
  | _ => 0

/-! ### Number parsing

`pyFloat` models Python `float(s)` on the strings the source actually feeds
it: the capture groups of its regexes, which are either label words such as
`"radius"` (on which `float` raises `ValueError`, modelled by `none`) or
strings shaped `\d+(\.\d+)?` (which parse). -/

def digitsToNat (cs : List Char) : Nat :=
  cs.foldl (fun a c => a * 10 + (c.toNat - '0'.toNat)) 0

def pyFloat (cs : List Char) : Option ℚ :=
  let ds := cs.takeWhile isDigitChar
  let r := cs.dropWhile isDigitChar
  if ds.isEmpty then none
  else
    match r with
    | [] => some (digitsToNat ds : ℚ)
    | '.' :: fs =>
        if fs ≠ [] ∧ fs.all isDigitChar then
          some ((digitsToNat ds : ℚ) + (digitsToNat fs : ℚ) / ((10 : ℚ) ^ fs.length))
        else none
    | _ => none

theorem pyFloat_nonneg {cs : List Char} {v : ℚ} (h : pyFloat cs = some v) : 0 ≤ v := by
  unfold pyFloat at h
  dsimp only at h
  split at h
  · exact absurd h (by simp)
  · split at h
    · cases h; positivity
    · split at h
      · cases h; positivity
      · exact absurd h (by simp)
    · exact absurd h (by simp)

/-! ### Regex scanners

Each concrete pattern of `text_processor.py` is compiled by hand to a
matcher `Option Char → List Char → Option (groups × rest)`: the attempt to
match at one position given the preceding character (for `\b`).  `reFindAll`
then reproduces `re.findall`: try every position left to right, and resume
after the end of a successful (always non-empty) match.  Fuel is the input
length plus one, which is enough since every iteration consumes a
character. -/

def reFindAll {γ : Type} (step : Option Char → List Char → Option (γ × List Char)) :
    Nat → Option Char → List Char → List γ
  | 0, _, _ => []
  | fuel + 1, prev, s =>
      match step prev s with
      | some (g, rest) =>
          let consumed := s.take (s.length - rest.length)
          g :: reFindAll step fuel ((consumed.getLast?).orElse (fun _ => prev)) rest
      | none =>
          match s with
          | [] => []
          | c :: cs => reFindAll step fuel (some c) cs

/-- Run a findall scan over a whole string. -/
def reScan {γ : Type} (step : Option Char → List Char → Option (γ × List Char))
    (s : List Char) : List γ :=
  reFindAll step (s.length + 1) none s

/-- `\b` between two (optional) adjacent characters. -/
def atBoundary (a b : Option Char) : Bool :=
  (match a with | some c => isWordChar c | none => false) ≠
  (match b with | some c => isWordChar c | none => false)

/-- Greedy `\d+(?:\.\d+)?`: the matched digit string and the rest.  In every
pattern of the source the element following the number cannot match a digit
or a lone dot, so the greedy parse needs no backtracking. -/
def matchNumber (s : List Char) : Option (List Char × List Char) :=
  let ds := s.takeWhile isDigitChar
  let r1 := s.dropWhile isDigitChar
  if ds.isEmpty then none
  else
    match r1 with
    | '.' :: r2 =>
        let fs := r2.takeWhile isDigitChar
        if fs.isEmpty then some (ds, r1)
        else some (ds ++ '.' :: fs, r2.dropWhile isDigitChar)
    | _ => some (ds, r1)

/-- Groups of one labeled-dimension match: in `re.findall` tuple order,
`label` (group 1), `num` (group 2), `unit` (group 3, `""` when absent). -/
structure LabeledGroups where
  label : List Char
  num : List Char
  unit : List Char
deriving DecidableEq

/-- Matcher for `\b(<label>|<alias>)\s*[=:]\s*(\d+(?:\.\d+)?)\s*([a-zA-Z]+)?\b`
at one position.  Alternatives are tried in the pattern's order; the
optional unit group is greedy, falling back to absence when the trailing
`\b` fails (shorter letter runs can never restore the boundary). -/
def matchLabeledAt (alts : List (List Char)) (prev : Option Char) (s : List Char) :
    Option (LabeledGroups × List Char) :=
  if atBoundary prev s.head? then
    alts.firstM (fun alt =>
      if alt.isPrefixOf s then
        let s1 := s.drop alt.length
        let s2 := s1.dropWhile isSpaceChar
        match s2 with
        | sep :: s3 =>
            if sep = '=' ∨ sep = ':' then
              let s4 := s3.dropWhile isSpaceChar
              match matchNumber s4 with
              | some (num, s5) =>
                  let s6 := s5.dropWhile isSpaceChar
                  let letters := s6.takeWhile isLetterChar
                  let afterLetters := s6.dropWhile isLetterChar
                  if ¬ letters.isEmpty ∧ atBoundary letters.getLast? afterLetters.head? then
                    some (⟨alt, num, letters⟩, afterLetters)
                  else
                    -- unit group absent: `\b` directly after `\s*`
                    let prevHere := if s5.length = s6.length then num.getLast? else some ' '
                    if atBoundary prevHere s6.head? then some (⟨alt, num, []⟩, s6)
                    else none
              | none => none
            else none
        | [] => none
      else none)
  else none

/-- Matcher for the "A by B" pattern
`(\d+(?:\.\d+)?)\s*(?:by|x|Ã—)\s*(\d+(?:\.\d+)?)` (the third alternative is
the two-character mojibake literal present in the source). -/
def matchByAt (_prev : Option Char) (s : List Char) :
    Option ((List Char × List Char) × List Char) :=
  match matchNumber s with
  | some (a, s1) =>
      let s2 := s1.dropWhile isSpaceChar
      match [['b', 'y'], ['x'], ['Ã', '—']].firstM (fun sep =>
          if sep.isPrefixOf s2 then some (s2.drop sep.length) else none) with
      | some s3 =>
          let s4 := s3.dropWhile isSpaceChar
          match matchNumber s4 with
          | some (b, rest) => some ((a, b), rest)
          | none => none
      | none => none
  | none => none

/-- Matcher for the bare-measurement pattern
`(\d+(?:\.\d+)?)\s*(mm|cm|m|in|ft)` (alternatives in the pattern's order). -/
def matchBareAt (_prev : Option Char) (s : List Char) :
    Option ((List Char × List Char) × List Char) :=
  match matchNumber s with
  | some (num, s1) =>
      let s2 := s1.dropWhile isSpaceChar
      match [['m', 'm'], ['c', 'm'], ['m'], ['i', 'n'], ['f', 't']].firstM (fun u =>
          if u.isPrefixOf s2 then some (u, s2.drop u.length) else none) with
      | some (u, rest) => some ((num, u), rest)
      | none => none
  | none => none

/-- Plain substring containment, Python `pat in text`. -/
def containsSub (s pat : List Char) : Bool :=
  match s with
  | [] => pat.isPrefixOf ([] : List Char)
  | _ :: tail => pat.isPrefixOf s || containsSub tail pat

/-! ### `TextProcessor._normalize_text` -/

def toLowerChars (s : List Char) : List Char := s.map Char.toLower

/-- `re.sub(r'\s+', ' ', ...)`: each maximal whitespace run becomes one space. -/
def collapseWsAux : Bool → List Char → List Char
  | _, [] => []
  | prevSp, c :: cs =>
      if isSpaceChar c then
        if prevSp then collapseWsAux true cs else ' ' :: collapseWsAux true cs
      else c :: collapseWsAux false cs

def collapseWs (s : List Char) : List Char := collapseWsAux false s

/-- One `re.sub(r'\b(x|full)\b', full, ...)` step, acting on a maximal word
run (the replacement targets are whole words, so the six substitutions act
word-wise). -/
def aliasStep (shortA full w : List Char) : List Char :=
  if w = shortA ∨ w = full then full else w

/-- The six abbreviation substitutions, in source order. -/
def aliasWord (w : List Char) : List Char :=
  let w := aliasStep ['r'] "radius".data w
  let w := aliasStep ['d'] "diameter".data w
  let w := aliasStep ['w'] "width".data w
  let w := aliasStep ['h'] "height".data w
  let w := aliasStep ['l'] "length".data w
  aliasStep ['s'] "side".data w

/-- Apply a function to every maximal run of word characters. -/
def mapWordsAux (f : List Char → List Char) (acc : List Char) : List Char → List Char
  | [] => if acc.isEmpty then [] else f acc.reverse
  | c :: cs =>
      if isWordChar c then mapWordsAux f (c :: acc) cs
      else (if acc.isEmpty then [] else f acc.reverse) ++ c :: mapWordsAux f [] cs

def mapWords (f : List Char → List Char) (s : List Char) : List Char := mapWordsAux f [] s

/-- Python `str.strip()`. -/
def stripChars (s : List Char) : List Char :=
  ((s.dropWhile isSpaceChar).reverse.dropWhile isSpaceChar).reverse

/-- `_normalize_text`: lower-case, collapse whitespace, expand the six
one-letter dimension aliases, strip. -/
def normalizeText (s : String) : List Char :=
  stripChars (mapWords aliasWord (collapseWs (toLowerChars s.data)))

/-! ### `TextProcessor._detect_shape_type` -/

/-- Maximal word runs of a text. -/
def wordsOfAux (acc : List Char) : List Char → List (List Char)
  | [] => if acc.isEmpty then [] else [acc.reverse]
  | c :: cs =>
      if isWordChar c then wordsOfAux (c :: acc) cs
      else (if acc.isEmpty then [] else [acc.reverse]) ++ wordsOfAux [] cs

def wordsOf (s : List Char) : List (List Char) := wordsOfAux [] s

/-- `re.search(r'\b(a1|…|an)\b', text)` for all-word-character alternatives:
some maximal word run equals one of them. -/
def containsWordOf (s : List Char) (alts : List (List Char)) : Bool :=
  (wordsOf s).any (fun w => alts.any (fun a => a == w))

def circleWords : List (List Char) :=
  ["circle".data, "round".data, "circular".data, "disk".data, "ring".data]
def rectangleWords : List (List Char) :=
  ["rectangle".data, "rect".data, "square".data, "box".data, "rectangular".data]
def triangleWords : List (List Char) :=
  ["triangle".data, "triangular".data, "pyramid".data]
def hexagonWords : List (List Char) :=
  ["hexagon".data, "hex".data, "hexagonal".data]
def polygonWords : List (List Char) :=
  ["polygon".data, "poly".data, "shape".data, "figure".data]

/-- `_detect_shape_type`: a non-auto hint wins lower-cased; otherwise the
five keyword groups are tried in dict order, defaulting to circle. -/
def detectShapeType (text : List Char) (expectedShape : String) : String :=
  if expectedShape ≠ "Auto-detect" then strToLower expectedShape
  else if containsWordOf text circleWords then "circle"
  else if containsWordOf text rectangleWords then "rectangle"
  else if containsWordOf text triangleWords then "triangle"
  else if containsWordOf text hexagonWords then "hexagon"
  else if containsWordOf text polygonWords then "polygon"
  else "circle"

/-! ### `TextProcessor._convert_to_mm` -/

def unitTable : List (List Char × ℚ) :=
  [("mm".data, 1), ("millimeter".data, 1), ("millimeters".data, 1),
   ("cm".data, 10), ("centimeter".data, 10), ("centimeters".data, 10),
   ("m".data, 1000), ("meter".data, 1000), ("meters".data, 1000),
   ("in".data, 254 / 10), ("inch".data, 254 / 10), ("inches".data, 254 / 10),
   ("ft".data, 3048 / 10), ("foot".data, 3048 / 10), ("feet".data, 3048 / 10)]

/-- `_convert_to_mm`: known unit tokens scale; unknown tokens are identity. -/
def convertToMm (v : ℚ) (unitToken : List Char) : ℚ :=
  match unitTable.find? (fun p => p.1 == toLowerChars unitToken) with
  | some p => v * p.2
  | none => v

/-! ### `TextProcessor._extract_dimensions` and `_handle_special_cases` -/

def dimensionPatterns : List (DimKey × List (List Char)) :=
  [(.radius, ["radius".data, ['r']]), (.diameter, ["diameter".data, ['d']]),
   (.width, ["width".data, ['w']]), (.height, ["height".data, ['h']]),
   (.length, ["length".data, ['l']]), (.side, ["side".data, ['s']])]

/-- The labeled-pattern loop of `_extract_dimensions`, including its
`value = float(match[0])` slip: `match[0]` is the *label* capture group
(and `match[1]`, used as the unit, is the number string), so any labeled
match raises `ValueError`, which `process_text` re-raises. -/
def extractLabeled (text : List Char) (dims0 : Dims) : Except String Dims :=
  dimensionPatterns.foldlM (fun dims kp =>
    (reScan (matchLabeledAt kp.2) text).foldlM (fun d g =>
      match pyFloat g.label with
      | none => .error ("could not convert string to float: " ++ String.mk g.label)
      | some value => .ok (dimsSet d kp.1 (convertToMm value g.num))) dims) dims0

/-- `'circle' in text or 'round' in text` (plain substring checks). -/
def circleVocab (text : List Char) : Bool :=
  containsSub text "circle".data || containsSub text "round".data

/-- One iteration of the "A by B" loop body of `_handle_special_cases`. -/
def byRuleStep (text : List Char) (d : Dims) (m : List Char × List Char) : Dims :=
  let val1 := (pyFloat m.1).getD 0
  let val2 := (pyFloat m.2).getD 0
  if circleVocab text then
    if ¬ dimsContains d .diameter then dimsSet d .diameter (max val1 val2) else d
  else
    let d1 := if ¬ dimsContains d .width then dimsSet d .width val1 else d
    if ¬ dimsContains d1 .height then dimsSet d1 .height val2 else d1

/-- The "A by B" half of `_handle_special_cases`. -/
def applyByRule (text : List Char) (dims0 : Dims) : Dims :=
  let sizeMatches := reScan matchByAt text
  if ¬ sizeMatches.isEmpty then sizeMatches.foldl (byRuleStep text) dims0
  else dims0

/-- The bare-measurement half of `_handle_special_cases` (fires only when
the dimensions dict is still empty). -/
def applyBareRule (text : List Char) (dims1 : Dims) : Dims :=
  let simpleMatches := reScan matchBareAt text
  if ¬ simpleMatches.isEmpty ∧ dims1.isEmpty then
    match simpleMatches with
    | [] => dims1
    | m :: _ =>
        let converted := convertToMm ((pyFloat m.1).getD 0) m.2
        if circleVocab text then dimsSet dims1 .radius (converted / 2)
        else dimsSet (dimsSet dims1 .width converted) .height converted
  else dims1

/-- `_handle_special_cases`: the "A by B" rule, then the bare-measurement
rule. -/
def handleSpecialCases (text : List Char) (dims0 : Dims) : Dims :=
  applyBareRule text (applyByRule text dims0)

/-- `_extract_dimensions`. -/
def extractDimensions (text : List Char) : Except String Dims := do
  let dims ← extractLabeled text []
  pure (handleSpecialCases text dims)

/-! ### `TextProcessor._construct_*` -/

/-- `_get_vertex_count` (`vertex_counts.get(shape_type, 4)`). -/
def getVertexCount (shapeType : String) : Int :=
  if shapeType = "circle" then 0
  else if shapeType = "rectangle" then 4
  else if shapeType = "triangle" then 3
  else if shapeType = "hexagon" then 6
  else if shapeType = "polygon" then 8
  else 4

/-- The circle radius computed by `_construct_circle_data` (its local
`radius` variable after the diameter/radius reconciliation). -/
def circleRadius (dims : Dims) : ℚ :=
  if dimsContains dims .diameter then dimsGetD dims .diameter 50 / 2
  else dimsGetD dims .radius 25

/-- The circle diameter computed by `_construct_circle_data`. -/
def circleDiameter (dims : Dims) : ℚ :=
  if dimsContains dims .diameter then dimsGetD dims .diameter 50
  else dimsGetD dims .radius 25 * 2

def constructCircleData (dims : Dims) : PyDict :=
  [(.center, .pair 0 0), (.radius, .num (circleRadius dims)),
   (.diameter, .num (circleDiameter dims)),
   (.area, .num (piQ * circleRadius dims * circleRadius dims)),
   (.perimeter, .num (piQ * circleDiameter dims))]

/-- `_construct_rectangle_data` width after the square cross-fill. -/
def rectWidth (dims : Dims) : ℚ :=
  if dimsContains dims .height ∧ ¬ dimsContains dims .width then dimsGetD dims .height 75
  else dimsGetD dims .width 100

/-- `_construct_rectangle_data` height after the square cross-fill. -/
def rectHeight (dims : Dims) : ℚ :=
  if dimsContains dims .width ∧ ¬ dimsContains dims .height then dimsGetD dims .width 100
  else dimsGetD dims .height 75

def constructRectangleData (dims : Dims) : PyDict :=
  [(.center, .pair 0 0), (.width, .num (rectWidth dims)),
   (.height, .num (rectHeight dims)),
   (.area, .num (rectWidth dims * rectHeight dims)),
   (.perimeter, .num (2 * (rectWidth dims + rectHeight dims)))]

def triBase (dims : Dims) : ℚ := dimsGetD dims .width (dimsGetD dims .length 100)

def triHeight (dims : Dims) : ℚ := dimsGetD dims .height 75

def constructTriangleData (dims : Dims) : PyDict :=
  [(.center, .pair 0 0), (.width, .num (triBase dims)), (.height, .num (triHeight dims)),
   (.area, .num ((1 / 2 : ℚ) * triBase dims * triHeight dims)),
   (.perimeter, .num (3 * sqrtQ (triBase dims * triBase dims + triHeight dims * triHeight dims)))]

def hexSide (dims : Dims) : ℚ := dimsGetD dims .side 50

def constructHexagonData (dims : Dims) : PyDict :=
  [(.center, .pair 0 0), (.sideLength, .num (hexSide dims)),
   (.width, .num (2 * hexSide dims)), (.height, .num (sqrtQ 3 * hexSide dims)),
   (.area, .num (3 * sqrtQ 3 * hexSide dims * hexSide dims / 2)),
   (.perimeter, .num (6 * hexSide dims))]

def polySide (dims : Dims) : ℚ := dimsGetD dims .side 50

def polyWidth (dims : Dims) : ℚ := dimsGetD dims .width 100

def polyHeight (dims : Dims) : ℚ := dimsGetD dims .height 100

def constructPolygonData (dims : Dims) : PyDict :=
  [(.center, .pair 0 0), (.sideLength, .num (polySide dims)),
   (.width, .num (polyWidth dims)), (.height, .num (polyHeight dims)),
   (.area, .num (polyWidth dims * polyHeight dims * (8 / 10 : ℚ))),
   (.perimeter, .num (8 * polySide dims))]

/-- `_construct_shape_data`: five-key base record, then the per-type update. -/
def constructShapeData (shapeType : String) (dims : Dims) : PyDict :=
  let base : PyDict :=
    [(.type, .str shapeType), (.confidence, .num 85),
     (.vertices, .int (getVertexCount shapeType)),
     (.area, .num 0), (.perimeter, .num 0)]
  if shapeType = "circle" then dictUpdate base (constructCircleData dims)
  else if shapeType = "rectangle" then dictUpdate base (constructRectangleData dims)
  else if shapeType = "triangle" then dictUpdate base (constructTriangleData dims)
  else if shapeType = "hexagon" then dictUpdate base (constructHexagonData dims)
  else dictUpdate base (constructPolygonData dims)

/-! ### `TextProcessor._add_metadata` and `process_text` -/

def unitSubs : List (List Char) :=
  ["mm".data, "cm".data, "m".data, "in".data, "ft".data]
def shapeSubs : List (List Char) :=
  ["circle".data, "rectangle".data, "triangle".data, "hexagon".data]

/-- The `confidence_boost` accumulated by `_add_metadata`. -/
def confBoost (d : PyDict) (text : List Char) : ℚ :=
  (if 5 < dictLen d then 5 else 0) +
  (if unitSubs.any (fun u => containsSub text u) then 5 else 0) +
  (if shapeSubs.any (fun u => containsSub text u) then 5 else 0)

/-- `_add_metadata`: up to three +5 confidence boosts capped at 100, then
timestamp and source.  The wall clock is an explicit argument. -/
def addMetadata (d : PyDict) (text : List Char) (clock : String) : PyDict :=
  let d1 := dictSet d .confidence (.num (min 100 (getNum d .confidence + confBoost d text)))
  let d2 := dictSet d1 .timestamp (.str clock)
  dictSet d2 .source (.str "text_input")

/-- `TextProcessor.process_text`.  The caught-and-rewrapped exception is the
`Except.error` case. -/
def processText (textInput expectedShape clock : String) : Except String PyDict :=
  let normalized := normalizeText textInput
  let detected := detectShapeType normalized expectedShape
  match extractDimensions normalized with
  | .error e => .error ("Text processing failed: " ++ e)
  | .ok dims => .ok (addMetadata (constructShapeData detected dims) normalized clock)

/-- The `.ok` payload of a pipeline result, if any. -/
def okPart : Except String PyDict → Option PyDict
  | .ok d => some d
  | .error _ => none

/-! ### `sketch_processor.py`

The shape detectors consume a contour only through the OpenCV measurements
`len(approx)`, `cv2.contourArea`, `cv2.arcLength`, `cv2.boundingRect` and
`cv2.minEnclosingCircle`; a contour is therefore abstracted by those
values.  Each detector returns at most one hypothesis.  (`_detect_shapes`
additionally stores the raw `contour`/`approx_contour` arrays on each
hypothesis and `_enhance_shape_data` later adds `scale_factor`,
`manufacturable`, `min_feature_size` and `timestamp`; none of these touch
the fields the claims are about, so they are not carried here.) -/

structure ContourData where
  approxLen : Nat
  area : ℚ
  perimeter : ℚ
  bbX : ℚ
  bbY : ℚ
  bbW : ℚ
  bbH : ℚ
  mecX : ℚ
  mecY : ℚ
  mecR : ℚ
deriving DecidableEq

structure SketchHyp where
  type : String
  centerX : ℚ
  centerY : ℚ
  radius : Option ℚ
  width : Option ℚ
  height : Option ℚ
  confidence : ℚ
  vertices : Nat
  area : ℚ
  perimeter : ℚ
deriving DecidableEq

/-- The circularity measure `4π·area/perimeter²` of `_detect_circle`. -/
def circularity (c : ContourData) : ℚ :=
  4 * piQ * c.area / (c.perimeter * c.perimeter)

/-- The `area / rect_area` bounding-box ratio computed identically by the
four polygonal detectors (0 when the bounding box is degenerate). -/
def contourRatio (c : ContourData) : ℚ :=
  if c.bbW * c.bbH > 0 then c.area / (c.bbW * c.bbH) else 0

/-- `SketchProcessor._detect_circle`. -/
def detectCircle (c : ContourData) (precision : ℤ) : Option SketchHyp :=
  if c.perimeter = 0 then none
  else
    if circularity c > (7 / 10 : ℚ) + (precision : ℚ) * (2 / 100) then
      some { type := "circle", centerX := c.mecX, centerY := c.mecY,
             radius := some c.mecR, width := none, height := none,
             confidence := min 100 (circularity c * 100),
             vertices := c.approxLen, area := c.area, perimeter := c.perimeter }
    else none

/-- `SketchProcessor._detect_rectangle`. -/
def detectRectangle (c : ContourData) (precision : ℤ) : Option SketchHyp :=
  if c.approxLen = 4 then
    if contourRatio c > (6 / 10 : ℚ) + (precision : ℚ) * (3 / 100) then
      some { type := "rectangle",
             centerX := c.bbX + c.bbW / 2, centerY := c.bbY + c.bbH / 2,
             radius := none, width := some c.bbW, height := some c.bbH,
             confidence := min 100 (contourRatio c * 100),
             vertices := 4, area := c.area, perimeter := c.perimeter }
    else none
  else none

/-- `SketchProcessor._detect_triangle`. -/
def detectTriangle (c : ContourData) (precision : ℤ) : Option SketchHyp :=
  if c.approxLen = 3 then
    if |contourRatio c - 5 / 10| < (3 / 10 : ℚ) + (precision : ℚ) * (4 / 100) then
      some { type := "triangle",
             centerX := c.bbX + c.bbW / 2, centerY := c.bbY + c.bbH / 2,
             radius := none, width := some c.bbW, height := some c.bbH,
             confidence := min 100 ((1 - |contourRatio c - 5 / 10|) * 100),
             vertices := 3, area := c.area, perimeter := c.perimeter }
    else none
  else none

/-- `SketchProcessor._detect_hexagon`. -/
def detectHexagon (c : ContourData) (precision : ℤ) : Option SketchHyp :=
  if c.approxLen = 6 then
    if |contourRatio c - 866 / 1000| < (2 / 10 : ℚ) + (precision : ℚ) * (3 / 100) then
      some { type := "hexagon",
             centerX := c.bbX + c.bbW / 2, centerY := c.bbY + c.bbH / 2,
             radius := none, width := some c.bbW, height := some c.bbH,
             confidence := min 100 ((1 - |contourRatio c - 866 / 1000|) * 100),
             vertices := 6, area := c.area, perimeter := c.perimeter }
    else none
  else none

/-- `SketchProcessor._detect_polygon`. -/
def detectPolygon (c : ContourData) (_precision : ℤ) : Option SketchHyp :=
  if c.approxLen > 6 then
    if contourRatio c > 3 / 10 then
      some { type := "polygon",
             centerX := c.bbX + c.bbW / 2, centerY := c.bbY + c.bbH / 2,
             radius := none, width := some c.bbW, height := some c.bbH,
             confidence := min 100 (contourRatio c * 100),
             vertices := c.approxLen, area := c.area, perimeter := c.perimeter }
    else none
  else none

/-- The hardcoded `_select_best_shape` fallback for an empty hypothesis
list. -/
def fallbackShape : SketchHyp :=
  { type := "circle", centerX := 0, centerY := 0, radius := some 50,
    width := none, height := none, confidence := 50, vertices := 0,
    area := 7854, perimeter := 314 }

/-- Python `max(best :: rest, key=lambda x: x['confidence'])`: the first
element attaining the maximal confidence wins. -/
def maxByConf : SketchHyp → List SketchHyp → SketchHyp
  | best, [] => best
  | best, x :: xs => maxByConf (if x.confidence > best.confidence then x else best) xs

/-- `SketchProcessor._select_best_shape`. -/
def selectBestShape (detected : List SketchHyp) (expectedShape : String) : SketchHyp :=
  match detected with
  | [] => fallbackShape
  | h :: t =>
      if expectedShape ≠ "Auto-detect" then
        match detected.filter (fun s => decide (s.type = strToLower expectedShape)) with
        | [] => maxByConf h t
        | e :: es => maxByConf e es
      else maxByConf h t

/-! ### Dictionary lemmas -/

theorem dictGet?_dictSet_self (d : PyDict) (k : FieldKey) (v : PyVal) :
    dictGet? (dictSet d k v) k = some v := by
  induction d with
  | nil => simp [dictSet, dictGet?]
  | cons p rest ih =>
      obtain ⟨k', v'⟩ := p
      by_cases h : k' = k
      · simp [dictSet, dictGet?, h]
      · simp [dictSet, dictGet?, h, ih]

theorem dictGet?_dictSet_ne (d : PyDict) (k k₂ : FieldKey) (v : PyVal) (hne : k₂ ≠ k) :
    dictGet? (dictSet d k v) k₂ = dictGet? d k₂ := by
  induction d with
  | nil => simp [dictSet, dictGet?, hne, Ne.symm hne]
  | cons p rest ih =>
      obtain ⟨k', v'⟩ := p
      by_cases h : k' = k
      · subst h
        simp only [dictSet, if_pos rfl]
        simp [dictGet?, Ne.symm hne]
      · by_cases h2 : k' = k₂
        · subst h2
          simp [dictSet, dictGet?, h, Ne.symm hne]
        · simp [dictSet, dictGet?, h, h2, ih]

theorem dictErase_dictSet_self (d : PyDict) (k : FieldKey) (v : PyVal) :
    dictErase (dictSet d k v) k = dictErase d k := by
  induction d with
  | nil => simp [dictSet, dictErase]
  | cons p rest ih =>
      obtain ⟨k', v'⟩ := p
      by_cases h : k' = k
      · simp [dictSet, dictErase, h]
      · simp [dictSet, dictErase, h, ih]

theorem dictErase_dictSet_ne (d : PyDict) (k k₂ : FieldKey) (v : PyVal) (hne : k ≠ k₂) :
    dictErase (dictSet d k v) k₂ = dictSet (dictErase d k₂) k v := by
  induction d with
  | nil => simp [dictSet, dictErase, hne]
  | cons p rest ih =>
      obtain ⟨k', v'⟩ := p
      by_cases h : k' = k
      · subst h
        simp [dictSet, dictErase, hne, Ne.symm hne]
      · by_cases h2 : k' = k₂
        · subst h2
          simp [dictSet, dictErase, h, Ne.symm h, ih]
        · simp [dictSet, dictErase, h, h2, ih]

theorem getNum_of_get? {d : PyDict} {k : FieldKey} {q : ℚ}
    (h : dictGet? d k = some (.num q)) : getNum d k = q := by
  unfold getNum; rw [h]

theorem getStr_of_get? {d : PyDict} {k : FieldKey} {s : String}
    (h : dictGet? d k = some (.str s)) : getStr d k = s := by
  unfold getStr; rw [h]

/-- Erasing the timestamp of a metadata-enriched record gives a result
independent of the wall clock. -/
theorem dictErase_timestamp_addMetadata (d : PyDict) (t : List Char) (c : String) :
    dictErase (addMetadata d t c) FieldKey.timestamp =
      dictSet (dictErase
        (dictSet d .confidence (.num (min 100 (getNum d .confidence + confBoost d t))))
        .timestamp) .source (.str "text_input") := by
  unfold addMetadata
  rw [dictErase_dictSet_ne _ _ _ _ (by simp), dictErase_dictSet_self]

/-! ### The record produced by `_construct_shape_data`, branch by branch -/

theorem constructShapeData_circle (dims : Dims) :
    constructShapeData "circle" dims =
      [(.type, .str "circle"), (.confidence, .num 85), (.vertices, .int 0),
       (.area, .num (piQ * circleRadius dims * circleRadius dims)),
       (.perimeter, .num (piQ * circleDiameter dims)),
       (.center, .pair 0 0), (.radius, .num (circleRadius dims)),
       (.diameter, .num (circleDiameter dims))] := rfl

theorem constructShapeData_rectangle (dims : Dims) :
    constructShapeData "rectangle" dims =
      [(.type, .str "rectangle"), (.confidence, .num 85), (.vertices, .int 4),
       (.area, .num (rectWidth dims * rectHeight dims)),
       (.perimeter, .num (2 * (rectWidth dims + rectHeight dims))),
       (.center, .pair 0 0), (.width, .num (rectWidth dims)),
       (.height, .num (rectHeight dims))] := rfl

theorem constructShapeData_triangle (dims : Dims) :
    constructShapeData "triangle" dims =
      [(.type, .str "triangle"), (.confidence, .num 85), (.vertices, .int 3),
       (.area, .num ((1 / 2 : ℚ) * triBase dims * triHeight dims)),
       (.perimeter,
        .num (3 * sqrtQ (triBase dims * triBase dims + triHeight dims * triHeight dims))),
       (.center, .pair 0 0), (.width, .num (triBase dims)),
       (.height, .num (triHeight dims))] := rfl

theorem constructShapeData_hexagon (dims : Dims) :
    constructShapeData "hexagon" dims =
      [(.type, .str "hexagon"), (.confidence, .num 85), (.vertices, .int 6),
       (.area, .num (3 * sqrtQ 3 * hexSide dims * hexSide dims / 2)),
       (.perimeter, .num (6 * hexSide dims)),
       (.center, .pair 0 0), (.sideLength, .num (hexSide dims)),
       (.width, .num (2 * hexSide dims)), (.height, .num (sqrtQ 3 * hexSide dims))] := rfl

theorem constructShapeData_other (ty : String) (dims : Dims)
    (h1 : ty ≠ "circle") (h2 : ty ≠ "rectangle") (h3 : ty ≠ "triangle")
    (h4 : ty ≠ "hexagon") :
    constructShapeData ty dims =
      [(.type, .str ty), (.confidence, .num 85), (.vertices, .int (getVertexCount ty)),
       (.area, .num (polyWidth dims * polyHeight dims * (8 / 10 : ℚ))),
       (.perimeter, .num (8 * polySide dims)),
       (.center, .pair 0 0), (.sideLength, .num (polySide dims)),
       (.width, .num (polyWidth dims)), (.height, .num (polyHeight dims))] := by
  unfold constructShapeData
  rw [if_neg h1, if_neg h2, if_neg h3, if_neg h4]
  rfl

/-- Facts common to all five construction branches: the type field carries
the classified type, the base confidence is 85, the vertex count comes from
`_get_vertex_count`, and the record has more than 5 fields. -/
theorem constructShapeData_basics (ty : String) (dims : Dims) :
    dictGet? (constructShapeData ty dims) .type = some (.str ty) ∧
    dictGet? (constructShapeData ty dims) .confidence = some (.num 85) ∧
    dictGet? (constructShapeData ty dims) .vertices = some (.int (getVertexCount ty)) ∧
    5 < dictLen (constructShapeData ty dims) := by
  by_cases h1 : ty = "circle"
  · subst h1; rw [constructShapeData_circle]; exact ⟨rfl, rfl, rfl, by simp [dictLen]⟩
  by_cases h2 : ty = "rectangle"
  · subst h2; rw [constructShapeData_rectangle]; exact ⟨rfl, rfl, rfl, by simp [dictLen]⟩
  by_cases h3 : ty = "triangle"
  · subst h3; rw [constructShapeData_triangle]; exact ⟨rfl, rfl, rfl, by simp [dictLen]⟩
  by_cases h4 : ty = "hexagon"
  · subst h4; rw [constructShapeData_hexagon]; exact ⟨rfl, rfl, rfl, by simp [dictLen]⟩
  rw [constructShapeData_other ty dims h1 h2 h3 h4]
  exact ⟨rfl, rfl, rfl, by simp [dictLen]⟩

/-! ### `_add_metadata` projections -/

theorem dictGet?_addMetadata_of_ne (d : PyDict) (t : List Char) (c : String) (k : FieldKey)
    (h1 : k ≠ .confidence) (h2 : k ≠ .timestamp) (h3 : k ≠ .source) :
    dictGet? (addMetadata d t c) k = dictGet? d k := by
  unfold addMetadata
  rw [dictGet?_dictSet_ne _ _ _ _ h3, dictGet?_dictSet_ne _ _ _ _ h2,
    dictGet?_dictSet_ne _ _ _ _ h1]

theorem dictGet?_addMetadata_confidence (d : PyDict) (t : List Char) (c : String) :
    dictGet? (addMetadata d t c) .confidence =
      some (.num (min 100 (getNum d .confidence + confBoost d t))) := by
  unfold addMetadata
  rw [dictGet?_dictSet_ne _ _ _ _ (by decide), dictGet?_dictSet_ne _ _ _ _ (by decide),
    dictGet?_dictSet_self]

theorem confBoost_nonneg (d : PyDict) (t : List Char) : 0 ≤ confBoost d t := by
  unfold confBoost; split_ifs <;> norm_num

theorem confBoost_ge_five (d : PyDict) (t : List Char) (h : 5 < dictLen d) :
    5 ≤ confBoost d t := by
  unfold confBoost
  rw [if_pos h]
  split_ifs <;> norm_num

/-- C10 — every record `process_text` returns has confidence at least 90:
each construction branch yields a record with more than 5 fields, so the
completeness boost of `_add_metadata` always fires on top of the base 85. -/
theorem processText_confidence_ge_90 (text hint clock : String) (d : PyDict)
    (h : processText text hint clock = .ok d) : 90 ≤ getNum d .confidence := by
  unfold processText at h
  dsimp only at h
  cases hex : extractDimensions (normalizeText text) with
  | error e => rw [hex] at h; cases h
  | ok dims =>
      rw [hex] at h
      injection h with h
      subst h
      have hb := constructShapeData_basics (detectShapeType (normalizeText text) hint) dims
      rw [getNum_of_get? (dictGet?_addMetadata_confidence _ _ _)]
      rw [getNum_of_get? hb.2.1]
      have h5 : (5 : ℚ) ≤ confBoost (constructShapeData (detectShapeType (normalizeText text) hint) dims)
          (normalizeText text) := confBoost_ge_five _ _ hb.2.2.2
      exact le_min (by norm_num) (by linarith)

/-- Witness for C10 at the concrete input `"hello world"`. -/
theorem processText_confidence_ge_90_witness :
    90 ≤ getNum ((okPart (processText "hello world" "Auto-detect" "t0")).getD [])
      .confidence :=
  processText_confidence_ge_90 "hello world" "Auto-detect" "t0" _ rfl

/-- C9 — `TextProcessor.process_text` is deterministic: with the wall clock
made explicit, results for two different clock readings agree exactly after
erasing the `timestamp` field (so type, geometry, area, perimeter and
confidence are all clock-independent, as is the error case). -/
theorem processText_deterministic (text hint c₁ c₂ : String) :
    (processText text hint c₁).map (fun d => dictErase d .timestamp) =
    (processText text hint c₂).map (fun d => dictErase d .timestamp) := by
  unfold processText
  cases h : extractDimensions (normalizeText text) <;>
    simp [h, Except.map, dictErase_timestamp_addMetadata]

/-! ### Non-negativity of every extracted dimension

The regexes only capture unsigned numbers, units scale by positive factors,
so any dimensions dict produced by `_extract_dimensions` maps every present
key to a non-negative value. -/

def DimsNonneg (d : Dims) : Prop := ∀ p ∈ d, (0 : ℚ) ≤ p.2

theorem dimsGet?_mem {d : Dims} {k : DimKey} {v : ℚ} (h : dimsGet? d k = some v) :
    (k, v) ∈ d := by
  induction d with
  | nil => cases h
  | cons q rest ih =>
      obtain ⟨k', v'⟩ := q
      by_cases hk : k' = k
      · subst hk
        simp [dimsGet?] at h
        rw [← h]
        exact List.mem_cons_self _ _
      · simp only [dimsGet?, if_neg hk] at h
        exact List.mem_cons_of_mem _ (ih h)

theorem dimsGetD_nonneg {d : Dims} (hd : DimsNonneg d) (k : DimKey) {dflt : ℚ}
    (hdflt : 0 ≤ dflt) : 0 ≤ dimsGetD d k dflt := by
  unfold dimsGetD
  cases h : dimsGet? d k with
  | none => simpa using hdflt
  | some v => simpa using hd _ (dimsGet?_mem h)

theorem dimsNonneg_set :
    ∀ (d : Dims), DimsNonneg d → ∀ (k : DimKey) (v : ℚ), 0 ≤ v →
      DimsNonneg (dimsSet d k v) := by
  intro d
  induction d with
  | nil =>
      intro _ k v hv p hp
      simp only [dimsSet, List.mem_singleton] at hp
      subst hp
      exact hv
  | cons q rest ih =>
      intro hd k v hv p hp
      obtain ⟨k', v'⟩ := q
      by_cases hk : k' = k
      · subst hk
        simp [dimsSet] at hp
        rcases hp with h | h
        · subst h; exact hv
        · exact hd _ (List.mem_cons_of_mem _ h)
      · simp only [dimsSet, if_neg hk, List.mem_cons] at hp
        rcases hp with h | h
        · subst h; exact hd _ (List.mem_cons_self _ _)
        · exact ih (fun q hq => hd q (List.mem_cons_of_mem _ hq)) k v hv _ h

theorem pyFloat_getD_nonneg (cs : List Char) : 0 ≤ (pyFloat cs).getD 0 := by
  cases h : pyFloat cs with
  | none => simp
  | some v => simpa using pyFloat_nonneg h

theorem unitTable_pos : ∀ p ∈ unitTable, (0 : ℚ) < p.2 := by
  intro p hp
  simp only [unitTable, List.mem_cons, List.not_mem_nil, or_false] at hp
  rcases hp with h|h|h|h|h|h|h|h|h|h|h|h|h|h|h <;> (subst h; norm_num)

theorem convertToMm_nonneg {v : ℚ} (hv : 0 ≤ v) (u : List Char) :
    0 ≤ convertToMm v u := by
  unfold convertToMm
  cases hf : unitTable.find? (fun p => p.1 == toLowerChars u) with
  | none => simpa using hv
  | some p =>
      have hp := unitTable_pos p (List.mem_of_find?_eq_some hf)
      simpa using mul_nonneg hv hp.le

theorem byRuleStep_nonneg (text : List Char) (d : Dims) (m : List Char × List Char)
    (hd : DimsNonneg d) : DimsNonneg (byRuleStep text d m) := by
  unfold byRuleStep
  dsimp only
  by_cases hc : circleVocab text = true
  · rw [if_pos hc]
    by_cases hdia : dimsContains d DimKey.diameter = true
    · rw [if_neg (by simp [hdia])]
      exact hd
    · rw [if_pos (by simp [hdia])]
      exact dimsNonneg_set d hd _ _ (le_max_of_le_left (pyFloat_getD_nonneg _))
  · rw [if_neg hc]
    split
    · split
      · exact dimsNonneg_set _ (dimsNonneg_set d hd _ _ (pyFloat_getD_nonneg _)) _ _
          (pyFloat_getD_nonneg _)
      · exact dimsNonneg_set d hd _ _ (pyFloat_getD_nonneg _)
    · split
      · exact dimsNonneg_set d hd _ _ (pyFloat_getD_nonneg _)
      · exact hd

theorem foldl_byRuleStep_nonneg (text : List Char) :
    ∀ (l : List (List Char × List Char)) (d : Dims), DimsNonneg d →
      DimsNonneg (l.foldl (byRuleStep text) d) := by
  intro l
  induction l with
  | nil => intro d hd; simpa using hd
  | cons a as ih =>
      intro d hd
      rw [List.foldl_cons]
      exact ih _ (byRuleStep_nonneg text d a hd)

theorem applyByRule_nonneg (text : List Char) (d0 : Dims) (h0 : DimsNonneg d0) :
    DimsNonneg (applyByRule text d0) := by
  unfold applyByRule
  dsimp only
  split
  · exact foldl_byRuleStep_nonneg text _ d0 h0
  · exact h0

theorem applyBareRule_nonneg (text : List Char) (d1 : Dims) (h1 : DimsNonneg d1) :
    DimsNonneg (applyBareRule text d1) := by
  unfold applyBareRule
  dsimp only
  cases hm : reScan matchBareAt text with
  | nil =>
      split_ifs <;> exact h1
  | cons m rest =>
      dsimp only
      split_ifs with h hc
      · exact dimsNonneg_set _ h1 _ _
          (div_nonneg (convertToMm_nonneg (pyFloat_getD_nonneg _) _) (by norm_num))
      · exact dimsNonneg_set _ (dimsNonneg_set _ h1 _ _
          (convertToMm_nonneg (pyFloat_getD_nonneg _) _)) _ _
          (convertToMm_nonneg (pyFloat_getD_nonneg _) _)
      · exact h1

theorem handleSpecialCases_nonneg (t : List Char) (d : Dims) (hd : DimsNonneg d) :
    DimsNonneg (handleSpecialCases t d) :=
  applyBareRule_nonneg _ _ (applyByRule_nonneg _ _ hd)

theorem foldlM_dims_nonneg {α : Type} (f : Dims → α → Except String Dims)
    (hf : ∀ d a d', DimsNonneg d → f d a = .ok d' → DimsNonneg d') :
    ∀ (l : List α) (d0 d : Dims), DimsNonneg d0 → List.foldlM f d0 l = .ok d →
      DimsNonneg d := by
  intro l
  induction l with
  | nil =>
      intro d0 d h0 h
      simp only [List.foldlM_nil] at h
      injection h with h
      rw [← h]
      exact h0
  | cons a as ih =>
      intro d0 d h0 h
      rw [List.foldlM_cons] at h
      cases hf0 : f d0 a with
      | error e =>
          rw [hf0] at h
          exact Except.noConfusion h
      | ok d1 =>
          rw [hf0] at h
          exact ih d1 d (hf d0 a d1 h0 hf0) h

theorem extractLabeled_nonneg (t : List Char) (d0 d : Dims) (h0 : DimsNonneg d0)
    (h : extractLabeled t d0 = .ok d) : DimsNonneg d := by
  unfold extractLabeled at h
  refine foldlM_dims_nonneg _ ?_ _ _ _ h0 h
  intro d1 kp d2 hd1 hstep
  refine foldlM_dims_nonneg _ ?_ _ _ _ hd1 hstep
  intro d3 g d4 hd3 hg
  cases hpf : pyFloat g.label with
  | none => rw [hpf] at hg; exact Except.noConfusion hg
  | some v =>
      rw [hpf] at hg
      injection hg with hg
      rw [← hg]
      exact dimsNonneg_set _ hd3 _ _ (convertToMm_nonneg (pyFloat_nonneg hpf) _)

theorem extractDimensions_nonneg (t : List Char) (d : Dims)
    (h : extractDimensions t = .ok d) : DimsNonneg d := by
  unfold extractDimensions at h
  cases hl : extractLabeled t [] with
  | error e => rw [hl] at h; exact Except.noConfusion h
  | ok dims =>
      rw [hl] at h
      injection h with h
      rw [← h]
      exact handleSpecialCases_nonneg _ _
        (extractLabeled_nonneg _ _ _ (fun p hp => absurd hp (List.not_mem_nil p)) hl)

/-! ### Geometry fields are non-negative given non-negative dimensions -/

theorem circleRadius_nonneg {dims : Dims} (hd : DimsNonneg dims) :
    0 ≤ circleRadius dims := by
  unfold circleRadius
  split
  · exact div_nonneg (dimsGetD_nonneg hd _ (by norm_num)) (by norm_num)
  · exact dimsGetD_nonneg hd _ (by norm_num)

theorem circleDiameter_nonneg {dims : Dims} (hd : DimsNonneg dims) :
    0 ≤ circleDiameter dims := by
  unfold circleDiameter
  split
  · exact dimsGetD_nonneg hd _ (by norm_num)
  · exact mul_nonneg (dimsGetD_nonneg hd _ (by norm_num)) (by norm_num)

theorem rectWidth_nonneg {dims : Dims} (hd : DimsNonneg dims) : 0 ≤ rectWidth dims := by
  unfold rectWidth
  split <;> exact dimsGetD_nonneg hd _ (by norm_num)

theorem rectHeight_nonneg {dims : Dims} (hd : DimsNonneg dims) : 0 ≤ rectHeight dims := by
  unfold rectHeight
  split <;> exact dimsGetD_nonneg hd _ (by norm_num)

theorem triBase_nonneg {dims : Dims} (hd : DimsNonneg dims) : 0 ≤ triBase dims :=
  dimsGetD_nonneg hd _ (dimsGetD_nonneg hd _ (by norm_num))

theorem triHeight_nonneg {dims : Dims} (hd : DimsNonneg dims) : 0 ≤ triHeight dims :=
  dimsGetD_nonneg hd _ (by norm_num)

theorem hexSide_nonneg {dims : Dims} (hd : DimsNonneg dims) : 0 ≤ hexSide dims :=
  dimsGetD_nonneg hd _ (by norm_num)

theorem polySide_nonneg {dims : Dims} (hd : DimsNonneg dims) : 0 ≤ polySide dims :=
  dimsGetD_nonneg hd _ (by norm_num)

theorem polyWidth_nonneg {dims : Dims} (hd : DimsNonneg dims) : 0 ≤ polyWidth dims :=
  dimsGetD_nonneg hd _ (by norm_num)

theorem polyHeight_nonneg {dims : Dims} (hd : DimsNonneg dims) : 0 ≤ polyHeight dims :=
  dimsGetD_nonneg hd _ (by norm_num)

theorem constructShapeData_area_perimeter_nonneg (ty : String) {dims : Dims}
    (hd : DimsNonneg dims) :
    0 ≤ getNum (constructShapeData ty dims) .area ∧
    0 ≤ getNum (constructShapeData ty dims) .perimeter := by
  by_cases h1 : ty = "circle"
  · subst h1
    rw [constructShapeData_circle]
    exact ⟨mul_nonneg (mul_nonneg piQ_pos.le (circleRadius_nonneg hd))
        (circleRadius_nonneg hd),
      mul_nonneg piQ_pos.le (circleDiameter_nonneg hd)⟩
  by_cases h2 : ty = "rectangle"
  · subst h2
    rw [constructShapeData_rectangle]
    exact ⟨mul_nonneg (rectWidth_nonneg hd) (rectHeight_nonneg hd),
      mul_nonneg (by norm_num) (add_nonneg (rectWidth_nonneg hd) (rectHeight_nonneg hd))⟩
  by_cases h3 : ty = "triangle"
  · subst h3
    rw [constructShapeData_triangle]
    exact ⟨mul_nonneg (mul_nonneg (by norm_num) (triBase_nonneg hd)) (triHeight_nonneg hd),
      mul_nonneg (by norm_num) (sqrtQ_nonneg _)⟩
  by_cases h4 : ty = "hexagon"
  · subst h4
    rw [constructShapeData_hexagon]
    exact ⟨div_nonneg (mul_nonneg (mul_nonneg (mul_nonneg (by norm_num) (sqrtQ_nonneg _))
        (hexSide_nonneg hd)) (hexSide_nonneg hd)) (by norm_num),
      mul_nonneg (by norm_num) (hexSide_nonneg hd)⟩
  rw [constructShapeData_other ty dims h1 h2 h3 h4]
  exact ⟨mul_nonneg (mul_nonneg (polyWidth_nonneg hd) (polyHeight_nonneg hd)) (by norm_num),
    mul_nonneg (by norm_num) (polySide_nonneg hd)⟩

/-! ### §3 record invariants (claim C7) -/

/-- The closed set of record types of §3. -/
def shapeNames : List String := ["circle", "rectangle", "triangle", "hexagon", "polygon"]

/-- §3 invariant, text-pipeline record form. -/
def RecordInv (d : PyDict) : Prop :=
  getStr d .type ∈ shapeNames ∧ 0 ≤ getNum d .confidence ∧ getNum d .confidence ≤ 100 ∧
  0 ≤ getNum d .area ∧ 0 ≤ getNum d .perimeter

/-- §3 invariant, sketch-hypothesis form. -/
def HypInv (h : SketchHyp) : Prop :=
  h.type ∈ shapeNames ∧ 0 ≤ h.confidence ∧ h.confidence ≤ 100 ∧
  0 ≤ h.area ∧ 0 ≤ h.perimeter

/-- Under the §6 interface contract (hint is the auto sentinel or one of the
five type names), `_detect_shape_type` returns one of the five names. -/
theorem detectShapeType_mem (text : List Char) (hint : String)
    (hv : hint = "Auto-detect" ∨ strToLower hint ∈ shapeNames) :
    detectShapeType text hint ∈ shapeNames := by
  unfold detectShapeType
  rcases hv with h | h
  · subst h
    rw [if_neg (by simp)]
    split_ifs <;> simp [shapeNames]
  · by_cases hh : hint = "Auto-detect"
    · subst hh
      rw [if_neg (by simp)]
      split_ifs <;> simp [shapeNames]
    · rw [if_pos hh]
      exact h

/-- Any successful `process_text` run factors through extraction,
construction and metadata. -/
theorem processText_ok_decompose (text hint clock : String) (d : PyDict)
    (h : processText text hint clock = .ok d) :
    ∃ dims, extractDimensions (normalizeText text) = .ok dims ∧
      d = addMetadata (constructShapeData (detectShapeType (normalizeText text) hint) dims)
        (normalizeText text) clock := by
  unfold processText at h
  dsimp only at h
  cases hex : extractDimensions (normalizeText text) with
  | error e => rw [hex] at h; exact Except.noConfusion h
  | ok dims =>
      rw [hex] at h
      injection h with h
      exact ⟨dims, rfl, h.symm⟩

theorem processText_RecordInv (text hint clock : String) (d : PyDict)
    (hv : hint = "Auto-detect" ∨ strToLower hint ∈ shapeNames)
    (h : processText text hint clock = .ok d) : RecordInv d := by
  obtain ⟨dims, hex, rfl⟩ := processText_ok_decompose text hint clock d h
  have hd : DimsNonneg dims := extractDimensions_nonneg _ _ hex
  have hb := constructShapeData_basics (detectShapeType (normalizeText text) hint) dims
  have hap : 0 ≤ getNum (constructShapeData (detectShapeType (normalizeText text) hint)
        dims) .area ∧
      0 ≤ getNum (constructShapeData (detectShapeType (normalizeText text) hint) dims)
        .perimeter :=
    constructShapeData_area_perimeter_nonneg (detectShapeType (normalizeText text) hint) hd
  refine ⟨?_, ?_, ?_, ?_, ?_⟩
  · have hty : getStr (addMetadata (constructShapeData
        (detectShapeType (normalizeText text) hint) dims) (normalizeText text) clock) .type =
        getStr (constructShapeData (detectShapeType (normalizeText text) hint) dims) .type := by
      unfold getStr
      rw [dictGet?_addMetadata_of_ne _ _ _ _ (by decide) (by decide) (by decide)]
    rw [hty, getStr_of_get? hb.1]
    exact detectShapeType_mem _ _ hv
  · rw [getNum_of_get? (dictGet?_addMetadata_confidence _ _ _), getNum_of_get? hb.2.1]
    have := confBoost_nonneg (constructShapeData (detectShapeType (normalizeText text) hint)
      dims) (normalizeText text)
    exact le_min (by norm_num) (by linarith)
  · rw [getNum_of_get? (dictGet?_addMetadata_confidence _ _ _)]
    exact min_le_left _ _
  · have harea : getNum (addMetadata (constructShapeData
        (detectShapeType (normalizeText text) hint) dims) (normalizeText text) clock) .area =
        getNum (constructShapeData (detectShapeType (normalizeText text) hint) dims) .area := by
      unfold getNum
      rw [dictGet?_addMetadata_of_ne _ _ _ _ (by decide) (by decide) (by decide)]
    rw [harea]
    exact hap.1
  · have hper : getNum (addMetadata (constructShapeData
        (detectShapeType (normalizeText text) hint) dims) (normalizeText text) clock)
        .perimeter =
        getNum (constructShapeData (detectShapeType (normalizeText text) hint) dims)
          .perimeter := by
      unfold getNum
      rw [dictGet?_addMetadata_of_ne _ _ _ _ (by decide) (by decide) (by decide)]
    rw [hper]
    exact hap.2

/-! ### Detector and selector invariants -/

theorem circularity_nonneg {c : ContourData} (ha : 0 ≤ c.area) :
    0 ≤ circularity c :=
  div_nonneg (mul_nonneg (mul_nonneg (by norm_num) piQ_pos.le) ha) (mul_self_nonneg _)

theorem contourRatio_nonneg {c : ContourData} (ha : 0 ≤ c.area) :
    0 ≤ contourRatio c := by
  unfold contourRatio
  split
  · next hpos => exact div_nonneg ha hpos.le
  · exact le_refl 0

theorem detectCircle_inv {c : ContourData} {p : ℤ} {hyp : SketchHyp}
    (ha : 0 ≤ c.area) (hpe : 0 ≤ c.perimeter)
    (hd : detectCircle c p = some hyp) : HypInv hyp := by
  unfold detectCircle at hd
  split_ifs at hd with h0 hc
  injection hd with hd
  subst hd
  refine ⟨by simp [shapeNames], ?_, min_le_left _ _, ha, hpe⟩
  exact le_min (by norm_num) (mul_nonneg (circularity_nonneg ha) (by norm_num))

theorem detectRectangle_inv {c : ContourData} {p : ℤ} {hyp : SketchHyp}
    (ha : 0 ≤ c.area) (hpe : 0 ≤ c.perimeter)
    (hd : detectRectangle c p = some hyp) : HypInv hyp := by
  unfold detectRectangle at hd
  split_ifs at hd with h4 hr
  injection hd with hd
  subst hd
  refine ⟨by simp [shapeNames], ?_, min_le_left _ _, ha, hpe⟩
  exact le_min (by norm_num) (mul_nonneg (contourRatio_nonneg ha) (by norm_num))

theorem detectTriangle_inv {c : ContourData} {p : ℤ} {hyp : SketchHyp}
    (hp10 : p ≤ 10) (ha : 0 ≤ c.area) (hpe : 0 ≤ c.perimeter)
    (hd : detectTriangle c p = some hyp) : HypInv hyp := by
  unfold detectTriangle at hd
  split_ifs at hd with h3 ht
  injection hd with hd
  subst hd
  have hp10Q : (p : ℚ) ≤ 10 := by exact_mod_cast hp10
  refine ⟨by simp [shapeNames], ?_, min_le_left _ _, ha, hpe⟩
  refine le_min (by norm_num) ?_
  have h4 : (p : ℚ) * (4 / 100) ≤ 10 * (4 / 100) :=
    mul_le_mul_of_nonneg_right hp10Q (by norm_num)
  have habs : (0 : ℚ) ≤ |contourRatio c - 5 / 10| := abs_nonneg _
  refine mul_nonneg (by linarith) (by norm_num)

theorem detectHexagon_inv {c : ContourData} {p : ℤ} {hyp : SketchHyp}
    (hp10 : p ≤ 10) (ha : 0 ≤ c.area) (hpe : 0 ≤ c.perimeter)
    (hd : detectHexagon c p = some hyp) : HypInv hyp := by
  unfold detectHexagon at hd
  split_ifs at hd with h6 hx
  injection hd with hd
  subst hd
  have hp10Q : (p : ℚ) ≤ 10 := by exact_mod_cast hp10
  refine ⟨by simp [shapeNames], ?_, min_le_left _ _, ha, hpe⟩
  refine le_min (by norm_num) ?_
  have h4 : (p : ℚ) * (3 / 100) ≤ 10 * (3 / 100) :=
    mul_le_mul_of_nonneg_right hp10Q (by norm_num)
  have habs : (0 : ℚ) ≤ |contourRatio c - 866 / 1000| := abs_nonneg _
  refine mul_nonneg (by linarith) (by norm_num)

theorem detectPolygon_inv {c : ContourData} {p : ℤ} {hyp : SketchHyp}
    (ha : 0 ≤ c.area) (hpe : 0 ≤ c.perimeter)
    (hd : detectPolygon c p = some hyp) : HypInv hyp := by
  unfold detectPolygon at hd
  split_ifs at hd with h6 hr
  injection hd with hd
  subst hd
  refine ⟨by simp [shapeNames], ?_, min_le_left _ _, ha, hpe⟩
  exact le_min (by norm_num) (mul_nonneg (contourRatio_nonneg ha) (by norm_num))

theorem fallbackShape_inv : HypInv fallbackShape := by
  refine ⟨by simp [fallbackShape, shapeNames], ?_, ?_, ?_, ?_⟩ <;>
    norm_num [fallbackShape]

/-- Python `max(key=confidence)` returns an element of the list. -/
theorem maxByConf_mem : ∀ (l : List SketchHyp) (best : SketchHyp),
    maxByConf best l ∈ best :: l := by
  intro l
  induction l with
  | nil => intro best; simp [maxByConf]
  | cons x xs ih =>
      intro best
      have h := ih (if x.confidence > best.confidence then x else best)
      show maxByConf (if x.confidence > best.confidence then x else best) xs ∈
        best :: x :: xs
      rcases List.mem_cons.mp h with h1 | h1
      · rw [h1]
        split_ifs
        · exact List.mem_cons_of_mem _ (List.mem_cons_self _ _)
        · exact List.mem_cons_self _ _
      · exact List.mem_cons_of_mem _ (List.mem_cons_of_mem _ h1)

theorem selectBestShape_inv (l : List SketchHyp) (hint : String)
    (hl : ∀ x ∈ l, HypInv x) : HypInv (selectBestShape l hint) := by
  unfold selectBestShape
  cases l with
  | nil => exact fallbackShape_inv
  | cons h t =>
      dsimp only
      split_ifs with hh
      · cases hf : (h :: t).filter (fun s => decide (s.type = strToLower hint)) with
        | nil => exact hl _ (maxByConf_mem t h)
        | cons e es =>
            have hmem := maxByConf_mem es e
            rw [← hf] at hmem
            exact hl _ (List.mem_of_mem_filter hmem)
      · exact hl _ (maxByConf_mem t h)

/-- C7 — every ShapeRecord produced by either pipeline (including the
sketch fallback) has a type among the five §3 names, confidence in
`[0, 100]`, and non-negative area and perimeter.  Text pipeline: under the
§6 hint contract.  Sketch pipeline: for any detector hypothesis on a
contour with the (always true for OpenCV measurements) non-negative area
and perimeter and precision in `[1, 10]`, for the fallback, and for
whatever `_select_best_shape` picks from invariant-satisfying
hypotheses. -/
theorem shapeRecord_invariants :
    (∀ text hint clock d, (hint = "Auto-detect" ∨ strToLower hint ∈ shapeNames) →
      processText text hint clock = .ok d → RecordInv d) ∧
    (∀ (c : ContourData) (p : ℤ) (hyp : SketchHyp), 1 ≤ p → p ≤ 10 →
      0 ≤ c.area → 0 ≤ c.perimeter →
      (detectCircle c p = some hyp ∨ detectRectangle c p = some hyp ∨
        detectTriangle c p = some hyp ∨ detectHexagon c p = some hyp ∨
        detectPolygon c p = some hyp) → HypInv hyp) ∧
    HypInv fallbackShape ∧
    (∀ l hint, (∀ x ∈ l, HypInv x) → HypInv (selectBestShape l hint)) := by
  refine ⟨processText_RecordInv, ?_, fallbackShape_inv, selectBestShape_inv⟩
  intro c p hyp hp1 hp10 ha hpe hd
  rcases hd with hd | hd | hd | hd | hd
  · exact detectCircle_inv ha hpe hd
  · exact detectRectangle_inv ha hpe hd
  · exact detectTriangle_inv hp10 ha hpe hd
  · exact detectHexagon_inv hp10 ha hpe hd
  · exact detectPolygon_inv ha hpe hd

/-- Witness for C7: the text pipeline on `"hello world"` and the sketch
selector on an empty hypothesis list. -/
theorem shapeRecord_invariants_witness :
    RecordInv ((okPart (processText "hello world" "Auto-detect" "t0")).getD []) ∧
    HypInv (selectBestShape [] "Auto-detect") :=
  ⟨shapeRecord_invariants.1 "hello world" "Auto-detect" "t0" _ (Or.inl rfl) rfl,
   shapeRecord_invariants.2.2.2 [] "Auto-detect"
     (fun x hx => absurd hx (List.not_mem_nil x))⟩

/-! ### Claim C6 — hypothesis selection -/

/-- `b` is the first element of `l` attaining the maximal confidence
(Python `max(l, key=confidence)`). -/
def IsFirstMax (l : List SketchHyp) (b : SketchHyp) : Prop :=
  ∃ pre post, l = pre ++ b :: post ∧
    (∀ x ∈ l, x.confidence ≤ b.confidence) ∧
    ∀ x ∈ pre, x.confidence < b.confidence

theorem maxByConf_isFirstMax : ∀ (t : List SketchHyp) (best : SketchHyp),
    IsFirstMax (best :: t) (maxByConf best t) := by
  intro t
  induction t with
  | nil =>
      intro best
      refine ⟨[], [], rfl, ?_, ?_⟩
      · intro x hx
        rw [List.mem_singleton.mp hx]
        exact le_refl best.confidence
      · intro x hx
        exact absurd hx (List.not_mem_nil x)
  | cons x xs ih =>
      intro best
      show IsFirstMax (best :: x :: xs)
        (maxByConf (if x.confidence > best.confidence then x else best) xs)
      by_cases hcmp : x.confidence > best.confidence
      · rw [if_pos hcmp]
        obtain ⟨pre, post, heq, hall, hpre⟩ := ih x
        refine ⟨best :: pre, post, ?_, ?_, ?_⟩
        · rw [List.cons_append, ← heq]
        · intro y hy
          rcases List.mem_cons.mp hy with h1 | h1
          · rw [h1]
            have hx : x.confidence ≤ (maxByConf x xs).confidence :=
              hall x (List.mem_cons_self _ _)
            linarith
          · exact hall y (heq ▸ h1)
        · intro y hy
          rcases List.mem_cons.mp hy with h1 | h1
          · rw [h1]
            have hx : x.confidence ≤ (maxByConf x xs).confidence :=
              hall x (List.mem_cons_self _ _)
            linarith
          · exact hpre y h1
      · rw [if_neg hcmp]
        obtain ⟨pre, post, heq, hall, hpre⟩ := ih best
        cases pre with
        | nil =>
            simp only [List.nil_append] at heq
            obtain ⟨hb, hxs⟩ := List.cons.inj heq
            refine ⟨[], x :: xs, ?_, ?_, ?_⟩
            · rw [List.nil_append, ← hb]
            · intro y hy
              rcases List.mem_cons.mp hy with h1 | h1
              · rw [h1, ← hb]
              · rcases List.mem_cons.mp h1 with h2 | h2
                · rw [h2, ← hb]
                  exact le_of_not_lt hcmp
                · exact hall y (List.mem_cons_of_mem _ h2)
            · intro y hy
              exact absurd hy (List.not_mem_nil y)
        | cons q pre' =>
            rw [List.cons_append] at heq
            obtain ⟨hb, hxs⟩ := List.cons.inj heq
            have hbestlt : best.confidence < (maxByConf best xs).confidence := by
              have := hpre q (List.mem_cons_self _ _)
              rw [← hb] at this
              exact this
            refine ⟨best :: x :: pre', post, ?_, ?_, ?_⟩
            · rw [List.cons_append, List.cons_append, ← hxs]
            · intro y hy
              rcases List.mem_cons.mp hy with h1 | h1
              · rw [h1]
                exact hbestlt.le
              · rcases List.mem_cons.mp h1 with h2 | h2
                · rw [h2]
                  have := le_of_not_lt hcmp
                  linarith
                · exact hall y (List.mem_cons_of_mem _ (hxs ▸ h2))
            · intro y hy
              rcases List.mem_cons.mp hy with h1 | h1
              · rw [h1]; exact hbestlt
              · rcases List.mem_cons.mp h1 with h2 | h2
                · rw [h2]
                  have := le_of_not_lt hcmp
                  linarith
                · exact hpre y (List.mem_cons_of_mem _ h2)

/-- C6 — `_select_best_shape`: an empty hypothesis list yields the
hardcoded fallback circle; a non-auto hint with at least one hypothesis of
that (lower-cased) type yields the first-encountered highest-confidence
hypothesis among that type only; otherwise the first-encountered
globally-highest-confidence hypothesis wins. -/
theorem selectBestShape_spec :
    (∀ hint, selectBestShape [] hint = fallbackShape) ∧
    (∀ l hint, hint ≠ "Auto-detect" →
      ∀ e es, l.filter (fun s => decide (s.type = strToLower hint)) = e :: es →
        IsFirstMax (e :: es) (selectBestShape l hint)) ∧
    (∀ l hint, l ≠ [] →
      (hint = "Auto-detect" ∨
        l.filter (fun s => decide (s.type = strToLower hint)) = []) →
      IsFirstMax l (selectBestShape l hint)) := by
  refine ⟨fun hint => rfl, ?_, ?_⟩
  · intro l hint hauto e es hf
    cases l with
    | nil => exact absurd hf (by simp)
    | cons h t =>
        unfold selectBestShape
        dsimp only
        rw [if_pos hauto, hf]
        exact maxByConf_isFirstMax es e
  · intro l hint hne hcase
    cases l with
    | nil => exact absurd rfl hne
    | cons h t =>
        unfold selectBestShape
        dsimp only
        rcases hcase with hc | hc
        · rw [if_neg (by simp [hc])]
          exact maxByConf_isFirstMax t h
        · by_cases hh : hint ≠ "Auto-detect"
          · rw [if_pos hh, hc]
            exact maxByConf_isFirstMax t h
          · rw [if_neg hh]
            exact maxByConf_isFirstMax t h

/-- Witness for C6: the empty list and a concrete singleton list. -/
theorem selectBestShape_spec_witness :
    selectBestShape [] "Circle" = fallbackShape ∧
    IsFirstMax [fallbackShape] (selectBestShape [fallbackShape] "Auto-detect") :=
  ⟨selectBestShape_spec.1 "Circle",
   selectBestShape_spec.2.2 [fallbackShape] "Auto-detect" (by simp) (Or.inl rfl)⟩

/-! ### Claim C8 — circle vertex counts -/

/-- Measurements of a hand-drawn circle of radius about 6 pixels whose
approximated polygon has 8 vertices (circularity `4π·113/38² ≈ 0.98`). -/
def circleContourEx : ContourData :=
  { approxLen := 8, area := 113, perimeter := 38,
    bbX := 0, bbY := 0, bbW := 12, bbH := 12, mecX := 6, mecY := 6, mecR := 6 }

/-- C8 counterexample — the sketch circle detector accepts this contour and
stores `vertices = len(approx) = 8`, not the 0 the claim asserts for every
circle record. -/
theorem sketchCircle_vertices_counterexample :
    (detectCircle circleContourEx 7).map (fun h => (h.type, h.vertices)) =
      some ("circle", 8) ∧
    ¬ (detectCircle circleContourEx 7).map (fun h => h.vertices) = some 0 := by
  constructor
  · with_unfolding_all decide
  · with_unfolding_all decide

/-- C8 (amended) — text-pipeline circle records and the sketch fallback
carry `vertices = 0`, while a sketch circle-detector record carries the
approx-polygon vertex count `len(approx)` instead. -/
theorem circleVertices_amended :
    (∀ text hint clock d, processText text hint clock = .ok d →
      getStr d .type = "circle" → dictGet? d .vertices = some (.int 0)) ∧
    fallbackShape.vertices = 0 ∧
    (∀ (c : ContourData) (p : ℤ) (hyp : SketchHyp), detectCircle c p = some hyp →
      hyp.vertices = c.approxLen) := by
  refine ⟨?_, rfl, ?_⟩
  · intro text hint clock d h hty
    obtain ⟨dims, hex, rfl⟩ := processText_ok_decompose text hint clock d h
    have hb := constructShapeData_basics (detectShapeType (normalizeText text) hint) dims
    have hty2 : getStr (addMetadata (constructShapeData
        (detectShapeType (normalizeText text) hint) dims) (normalizeText text) clock)
        .type = detectShapeType (normalizeText text) hint := by
      unfold getStr
      rw [dictGet?_addMetadata_of_ne _ _ _ _ (by decide) (by decide) (by decide), hb.1]
    rw [hty2] at hty
    rw [dictGet?_addMetadata_of_ne _ _ _ _ (by decide) (by decide) (by decide),
      hb.2.2.1, hty]
    rfl
  · intro c p hyp hd
    unfold detectCircle at hd
    split_ifs at hd with h0 hc
    injection hd with hd
    rw [← hd]

/-- Witness for the amended C8 at the concrete input `"hello world"`
(classified as a circle). -/
theorem circleVertices_amended_witness :
    dictGet? ((okPart (processText "hello world" "Auto-detect" "t0")).getD [])
      FieldKey.vertices = some (.int 0) :=
  circleVertices_amended.1 "hello world" "Auto-detect" "t0" _ rfl rfl

/-! ### Claim C3 — acceptance-threshold monotonicity in precision -/

/-- Measurements of a thin sliver with a 3-vertex approximation: bounding
box 10×10, contour area 14, so `|area_ratio − 0.5| = 0.36`. -/
def triContourEx : ContourData :=
  { approxLen := 3, area := 14, perimeter := 40,
    bbX := 0, bbY := 0, bbW := 10, bbH := 10, mecX := 0, mecY := 0, mecR := 0 }

/-- C3 counterexample — the triangle tolerance band *widens* with
precision: this contour is accepted at precision 2 but rejected at
precision 1, refuting "accepted at p+1 implies accepted at p" for the
triangle test (`0.36 < 0.38` but not `0.36 < 0.34`). -/
theorem thresholds_counterexample :
    (detectTriangle triContourEx 2).isSome = true ∧
    detectTriangle triContourEx 1 = none := by
  constructor
  · with_unfolding_all decide
  · with_unfolding_all decide

/-- C3 (amended) — the circle and rectangle tests become strictly harder as
precision grows (accepted at `p+1` implies accepted at `p`), while the
triangle and hexagon tolerance bands widen, so their monotonicity runs the
other way (accepted at `p` implies accepted at `p+1`). -/
theorem thresholds_amended :
    (∀ (c : ContourData) (p : ℤ) (hyp : SketchHyp), detectCircle c (p + 1) = some hyp →
      (detectCircle c p).isSome = true) ∧
    (∀ (c : ContourData) (p : ℤ) (hyp : SketchHyp), detectRectangle c (p + 1) = some hyp →
      (detectRectangle c p).isSome = true) ∧
    (∀ (c : ContourData) (p : ℤ) (hyp : SketchHyp), detectTriangle c p = some hyp →
      (detectTriangle c (p + 1)).isSome = true) ∧
    (∀ (c : ContourData) (p : ℤ) (hyp : SketchHyp), detectHexagon c p = some hyp →
      (detectHexagon c (p + 1)).isSome = true) := by
  refine ⟨?_, ?_, ?_, ?_⟩
  · intro c p hyp hd
    unfold detectCircle at hd ⊢
    split_ifs at hd with h0 hc
    have hc2 : circularity c > 7 / 10 + (p : ℚ) * (2 / 100) := by
      push_cast at hc
      linarith
    rw [if_neg h0, if_pos hc2]
    rfl
  · intro c p hyp hd
    unfold detectRectangle at hd ⊢
    split_ifs at hd with h4 hr
    have hr2 : contourRatio c > 6 / 10 + (p : ℚ) * (3 / 100) := by
      push_cast at hr
      linarith
    rw [if_pos h4, if_pos hr2]
    rfl
  · intro c p hyp hd
    unfold detectTriangle at hd ⊢
    split_ifs at hd with h3 ht
    have ht2 : |contourRatio c - 5 / 10| < 3 / 10 + ((p + 1 : ℤ) : ℚ) * (4 / 100) := by
      push_cast
      push_cast at ht
      linarith
    rw [if_pos h3, if_pos ht2]
    rfl
  · intro c p hyp hd
    unfold detectHexagon at hd ⊢
    split_ifs at hd with h6 hx
    have hx2 : |contourRatio c - 866 / 1000| <
        2 / 10 + ((p + 1 : ℤ) : ℚ) * (3 / 100) := by
      push_cast
      push_cast at hx
      linarith
    rw [if_pos h6, if_pos hx2]
    rfl

/-- Witness for the amended C3: the circle direction at `circleContourEx`
(accepted at 7, hence at 6) and the triangle direction at `triContourEx`
(accepted at 2, hence at 3). -/
theorem thresholds_amended_witness :
    (detectCircle circleContourEx 6).isSome = true ∧
    (detectTriangle triContourEx 3).isSome = true :=
  ⟨thresholds_amended.1 circleContourEx 6
      ((detectCircle circleContourEx 7).getD fallbackShape) (by with_unfolding_all rfl),
   thresholds_amended.2.2.1 triContourEx 2
      ((detectTriangle triContourEx 2).getD fallbackShape) (by with_unfolding_all rfl)⟩

/-! ### Claim C5 — area/perimeter round trip against the §4.4 formulas -/

/-- A generous reading of "within floating tolerance": relative error at
most `10⁻⁶` (IEEE-double round-off is far below this). -/
def approxEqQ (a b : ℚ) : Prop := |a - b| ≤ (1 / 1000000) * max 1 |b|

instance approxEqQ_decidable (a b : ℚ) : Decidable (approxEqQ a b) :=
  inferInstanceAs (Decidable (|a - b| ≤ (1 / 1000000) * max 1 |b|))

/-- The §4.4 recomputation property for a text-pipeline record: applying
the per-type formulas to the record's own geometry fields reproduces the
stored `area` and `perimeter` exactly. -/
def TextRoundTrip (d : PyDict) : Prop :=
  (getStr d .type = "circle" →
    getNum d .area = piQ * getNum d .radius * getNum d .radius ∧
    getNum d .perimeter = piQ * getNum d .diameter) ∧
  (getStr d .type = "rectangle" →
    getNum d .area = getNum d .width * getNum d .height ∧
    getNum d .perimeter = 2 * (getNum d .width + getNum d .height)) ∧
  (getStr d .type = "triangle" →
    getNum d .area = (1 / 2 : ℚ) * getNum d .width * getNum d .height ∧
    getNum d .perimeter =
      3 * sqrtQ (getNum d .width * getNum d .width + getNum d .height * getNum d .height)) ∧
  (getStr d .type = "hexagon" →
    getNum d .area = 3 * sqrtQ 3 * getNum d .sideLength * getNum d .sideLength / 2 ∧
    getNum d .perimeter = 6 * getNum d .sideLength) ∧
  (getStr d .type = "polygon" →
    getNum d .area = getNum d .width * getNum d .height * (8 / 10 : ℚ) ∧
    getNum d .perimeter = 8 * getNum d .sideLength)

theorem getNum_addMetadata_of_ne (d : PyDict) (t : List Char) (c : String) (k : FieldKey)
    (h1 : k ≠ .confidence) (h2 : k ≠ .timestamp) (h3 : k ≠ .source) :
    getNum (addMetadata d t c) k = getNum d k := by
  unfold getNum
  rw [dictGet?_addMetadata_of_ne _ _ _ _ h1 h2 h3]

theorem getStr_addMetadata_of_ne (d : PyDict) (t : List Char) (c : String) (k : FieldKey)
    (h1 : k ≠ .confidence) (h2 : k ≠ .timestamp) (h3 : k ≠ .source) :
    getStr (addMetadata d t c) k = getStr d k := by
  unfold getStr
  rw [dictGet?_addMetadata_of_ne _ _ _ _ h1 h2 h3]

theorem textRoundTrip_addMetadata (D : PyDict) (t : List Char) (c : String)
    (h : TextRoundTrip D) : TextRoundTrip (addMetadata D t c) := by
  unfold TextRoundTrip at h ⊢
  rw [getStr_addMetadata_of_ne D t c .type (by decide) (by decide) (by decide),
    getNum_addMetadata_of_ne D t c .area (by decide) (by decide) (by decide),
    getNum_addMetadata_of_ne D t c .perimeter (by decide) (by decide) (by decide),
    getNum_addMetadata_of_ne D t c .radius (by decide) (by decide) (by decide),
    getNum_addMetadata_of_ne D t c .diameter (by decide) (by decide) (by decide),
    getNum_addMetadata_of_ne D t c .width (by decide) (by decide) (by decide),
    getNum_addMetadata_of_ne D t c .height (by decide) (by decide) (by decide),
    getNum_addMetadata_of_ne D t c .sideLength (by decide) (by decide) (by decide)]
  exact h

theorem constructShapeData_roundTrip (ty : String) (dims : Dims) :
    TextRoundTrip (constructShapeData ty dims) := by
  unfold TextRoundTrip
  by_cases h1 : ty = "circle"
  · subst h1
    rw [constructShapeData_circle]
    exact ⟨fun _ => ⟨rfl, rfl⟩,
      fun hab => ((by decide : ¬ (("circle" : String) = "rectangle")) hab).elim,
      fun hab => ((by decide : ¬ (("circle" : String) = "triangle")) hab).elim,
      fun hab => ((by decide : ¬ (("circle" : String) = "hexagon")) hab).elim,
      fun hab => ((by decide : ¬ (("circle" : String) = "polygon")) hab).elim⟩
  by_cases h2 : ty = "rectangle"
  · subst h2
    rw [constructShapeData_rectangle]
    exact ⟨fun hab => ((by decide : ¬ (("rectangle" : String) = "circle")) hab).elim,
      fun _ => ⟨rfl, rfl⟩,
      fun hab => ((by decide : ¬ (("rectangle" : String) = "triangle")) hab).elim,
      fun hab => ((by decide : ¬ (("rectangle" : String) = "hexagon")) hab).elim,
      fun hab => ((by decide : ¬ (("rectangle" : String) = "polygon")) hab).elim⟩
  by_cases h3 : ty = "triangle"
  · subst h3
    rw [constructShapeData_triangle]
    exact ⟨fun hab => ((by decide : ¬ (("triangle" : String) = "circle")) hab).elim,
      fun hab => ((by decide : ¬ (("triangle" : String) = "rectangle")) hab).elim,
      fun _ => ⟨rfl, rfl⟩,
      fun hab => ((by decide : ¬ (("triangle" : String) = "hexagon")) hab).elim,
      fun hab => ((by decide : ¬ (("triangle" : String) = "polygon")) hab).elim⟩
  by_cases h4 : ty = "hexagon"
  · subst h4
    rw [constructShapeData_hexagon]
    exact ⟨fun hab => ((by decide : ¬ (("hexagon" : String) = "circle")) hab).elim,
      fun hab => ((by decide : ¬ (("hexagon" : String) = "rectangle")) hab).elim,
      fun hab => ((by decide : ¬ (("hexagon" : String) = "triangle")) hab).elim,
      fun _ => ⟨rfl, rfl⟩,
      fun hab => ((by decide : ¬ (("hexagon" : String) = "polygon")) hab).elim⟩
  rw [constructShapeData_other ty dims h1 h2 h3 h4]
  exact ⟨fun hab => absurd hab h1, fun hab => absurd hab h2, fun hab => absurd hab h3,
    fun hab => absurd hab h4, fun _ => ⟨rfl, rfl⟩⟩

/-- C5 (amended, text half) — every record `process_text` returns satisfies
the §4.4 recomputation exactly. -/
theorem textRoundTrip_holds (text hint clock : String) (d : PyDict)
    (h : processText text hint clock = .ok d) : TextRoundTrip d := by
  obtain ⟨dims, hex, rfl⟩ := processText_ok_decompose text hint clock d h
  exact textRoundTrip_addMetadata _ _ _ (constructShapeData_roundTrip _ dims)

/-- Witness for the amended C5 at the concrete input `"hello world"`. -/
theorem textRoundTrip_holds_witness :
    TextRoundTrip ((okPart (processText "hello world" "Auto-detect" "t0")).getD []) :=
  textRoundTrip_holds "hello world" "Auto-detect" "t0" _ rfl

/-- Measurements of a rounded-corner rectangle: bounding box 40×25
(`rect_area = 1000`), contour area 950 (ratio 0.95), contour perimeter
126. -/
def rectContourEx : ContourData :=
  { approxLen := 4, area := 950, perimeter := 126,
    bbX := 0, bbY := 0, bbW := 40, bbH := 25, mecX := 0, mecY := 0, mecR := 0 }

/-- C5 counterexample — the sketch rectangle detector stores the *measured*
contour area and perimeter, not the §4.4 recomputation from its width and
height: the accepted record has `area = 950` and `perimeter = 126`, but
`w·h = 1000` and `2(w+h) = 130`, far outside floating tolerance. -/
theorem roundTrip_counterexample :
    (detectRectangle rectContourEx 7).map
      (fun h => (h.type, h.area, h.perimeter, h.width, h.height)) =
      some ("rectangle", 950, 126, some 40, some 25) ∧
    ¬ approxEqQ 950 (40 * 25) ∧ ¬ approxEqQ 126 (2 * (40 + 25)) := by
  refine ⟨?_, ?_, ?_⟩
  · with_unfolding_all rfl
  · with_unfolding_all decide
  · with_unfolding_all decide

/-! ### Claims C1, C2, C4 — concrete text-pipeline behaviour -/

/-- C1 — `process_text` raises on `"radius = 25mm"`: the labeled-dimension
regex matches, and `_extract_dimensions` runs `float(match[0])` on the
label capture group `"radius"`, so the whole call fails — refuting "never
raises an exception" — while the documented graceful degradation for
`"hello world"` (circle, radius 25) does hold. -/
theorem processText_labeled_crash :
    processText "radius = 25mm" "Auto-detect" "t0" =
      .error "Text processing failed: could not convert string to float: radius" ∧
    (okPart (processText "hello world" "Auto-detect" "t0")).map
      (fun d => (getStr d .type, getNum d .radius)) = some ("circle", 25) := by
  constructor
  · with_unfolding_all rfl
  · with_unfolding_all rfl

/-- C2 counterexample — for `"A circle with radius 25mm"` the labeled
radius pattern requires `=` or `:`, so the bare-measurement rule fires and
halves the 25 mm: the stored radius is 12.5, not the claimed 25.0. -/
theorem circleText_counterexample :
    (okPart (processText "A circle with radius 25mm" "Auto-detect" "t0")).map
      (fun d => getNum d .radius) = some (25 / 2) ∧
    ¬ (okPart (processText "A circle with radius 25mm" "Auto-detect" "t0")).map
      (fun d => getNum d .radius) = some 25 := by
  constructor
  · with_unfolding_all rfl
  · with_unfolding_all decide

/-- C2 (amended) — `"A circle with radius 25mm"` (auto-detect) yields
type=circle, radius=12.5, diameter=25.0, area=π·12.5², confidence=100
(which is ≥ 85). -/
theorem circleText_amended :
    (okPart (processText "A circle with radius 25mm" "Auto-detect" "t0")).map
      (fun d => (getStr d .type, getNum d .radius, getNum d .diameter,
        getNum d .confidence)) = some ("circle", 25 / 2, 25, 100) ∧
    (okPart (processText "A circle with radius 25mm" "Auto-detect" "t0")).map
      (fun d => getNum d .area) = some (piQ * (25 / 2) * (25 / 2)) := by
  constructor
  · with_unfolding_all rfl
  · with_unfolding_all rfl

/-- C4 counterexample — for `"Rectangle 100mm by 50mm"` the "A by B" regex
cannot match (the unit token sits between the number and `by`), so the
bare-measurement rule makes a 100×100 square: height is 100 and area
10000, not the claimed 50 and 5000. -/
theorem rectText_counterexample :
    (okPart (processText "Rectangle 100mm by 50mm" "Auto-detect" "t0")).map
      (fun d => (getNum d .height, getNum d .area)) = some (100, 10000) ∧
    ¬ (okPart (processText "Rectangle 100mm by 50mm" "Auto-detect" "t0")).map
      (fun d => getNum d .height) = some 50 := by
  constructor
  · with_unfolding_all rfl
  · with_unfolding_all decide

/-- C4 (amended) — `"Rectangle 100mm by 50mm"` (auto-detect) yields
type=rectangle, width=100, height=100, area=10000, perimeter=400; the "by"
special case does fire on the unit-free `"Rectangle 100 by 50"`, which
yields the 100×50 rectangle with area 5000 the claim described. -/
theorem rectText_amended :
    (okPart (processText "Rectangle 100mm by 50mm" "Auto-detect" "t0")).map
      (fun d => (getStr d .type, getNum d .width, getNum d .height, getNum d .area,
        getNum d .perimeter)) = some ("rectangle", 100, 100, 10000, 400) ∧
    (okPart (processText "Rectangle 100 by 50" "Auto-detect" "t0")).map
      (fun d => (getStr d .type, getNum d .width, getNum d .height, getNum d .area)) =
      some ("rectangle", 100, 50, 5000) := by
  constructor
  · with_unfolding_all rfl
  · with_unfolding_all rfl

end Fabricator
